import Mathlib

/-!
# Verification of the noir-bench Benchmark Execution & Regression Analysis Engine

Shallow embedding of the core of the `noir-bench` repository:

* `src/report/regression.rs` — `RegressionStatus`, `MetricDelta`,
  `CircuitRegression`, `ReportSummary`, `RegressionReport` with its
  `add_circuit` / `finalize` accumulator, and `compute_delta_status`;
* `src/compare_cmd.rs` — the canonical metric table `METRIC_DEFS`,
  `get_nested_num`, `compare_values`, `compare_single_records`,
  `compare_jsonl_files` (modelled on in-memory record lists),
  `compare` totals and `to_regression_report`;
* `src/core/schema.rs` — `TimingStat::from_samples` and the parts of
  `BenchRecord` the workflow populates;
* `src/engine/workflow.rs` — `prove_with_iterations` and `full_benchmark`
  over a deterministic toolchain/backend environment.

Modelling conventions: Rust `f64` values are modelled as `ℚ` (all the
operations the claims concern — `+`, `-`, `*`, `/`, comparisons — are exact
rational operations); `usize`/`u32`/`u64` are modelled as `ℕ`; fallible Rust
functions returning `Result` are modelled with `Except String`.  The square
root inside `TimingStat::from_samples` is irrational-valued, so the struct
stores the population variance (`stddev_sq_ms`, the square of the source's
`stddev_ms`) and theorems relate it to the standard deviation through
`Real.sqrt`.  File-system and clock effects (record ids, timestamps, artifact
sizes, witness-file cleanup) are outside the embedded state.
-/

/-! ## JSON values (`serde_json::Value`, restricted to what the comparator reads) -/

/-- A JSON value as consumed by the comparator.  Numbers are rationals
(source: `f64`/`u64`, both read through `as_f64`). -/
inductive Json where
  | null : Json
  | bool' : Bool → Json
  | num : ℚ → Json
  | str : String → Json
  | arr : List Json → Json
  | obj : List (String × Json) → Json

/-- Object field lookup (`Value::get` for maps; objects have unique keys). -/
def Json.get : Json → String → Option Json
  | .obj fields, k => (fields.find? (fun f => decide (f.1 = k))).map (·.2)
  | _, _ => none

/-- Numeric extraction: `as_f64().or_else(|| as_u64().map(|u| u as f64))`. -/
def Json.as_num : Json → Option ℚ
  | .num q => some q
  | _ => none

/-- String extraction (`Value::as_str`). -/
def Json.as_str : Json → Option String
  | .str s => some s
  | _ => none

/-! ## `src/report/regression.rs` — statuses and `compute_delta_status` -/

/-- Status of a regression check (`RegressionStatus`). -/
inductive RegressionStatus where
  | ExceededThreshold
  | Improved
  | Ok
  | MissingBaseline
  | Error
  | Skipped
  deriving Repr, DecidableEq

/-- Compute delta status based on threshold (`compute_delta_status`,
`src/report/regression.rs:257-284`).  Returns
`(delta_abs, delta_pct, status)`. -/
def compute_delta_status (baseline target threshold_pct : ℚ)
    (higher_is_worse : Bool) : ℚ × ℚ × RegressionStatus :=
  let delta_abs := target - baseline
  let delta_pct := if baseline ≠ 0 then delta_abs * 100 / baseline else 0
  let status :=
    if higher_is_worse then
      if delta_pct > threshold_pct then RegressionStatus.ExceededThreshold
      else if delta_pct < -threshold_pct then RegressionStatus.Improved
      else RegressionStatus.Ok
    else
      RegressionStatus.Ok
  (delta_abs, delta_pct, status)

/-! ## Claim C1 -/

/-- Claim C1, counterexample.  The claim states that the status clauses
`delta_pct > threshold → ExceededThreshold`, `delta_pct < -threshold →
Improved`, `otherwise Ok` hold for every threshold, and that consequently a
zero baseline always yields status `Ok`.  At `baseline = 0`, `target = 100`,
`threshold = -1`, `higher_is_worse = true` the code computes `delta_pct = 0`
and, because `0 > -1` is checked first, returns `ExceededThreshold` — not
`Ok` (as the zero-baseline clause of the claim demands), and not `Improved`
(although `delta_pct < -threshold` holds at this input). -/
theorem c1_counterexample :
    (compute_delta_status 0 100 (-1) true).2.2 ≠ RegressionStatus.Ok ∧
    (compute_delta_status 0 100 (-1) true).2.1 < -(-1 : ℚ) ∧
    (compute_delta_status 0 100 (-1) true).2.2 ≠ RegressionStatus.Improved ∧
    (compute_delta_status 0 100 (-1) true).2.2 =
      RegressionStatus.ExceededThreshold := by
  have h : compute_delta_status 0 100 (-1) true =
      (100, 0, RegressionStatus.ExceededThreshold) := by
    simp only [compute_delta_status]
    norm_num
  refine ⟨by rw [h]; decide, by rw [h]; norm_num, by rw [h]; decide,
    by rw [h]⟩

/-- Claim C1 (amended): for every pair of metric values and every threshold,
`compute_delta_status` returns `delta_abs = target - baseline` and
`delta_pct = delta_abs * 100 / baseline` when `baseline ≠ 0` (else `0`); for
`higher_is_worse` metrics the checks apply in order — `ExceededThreshold`
when `delta_pct > threshold`, otherwise `Improved` when
`delta_pct < -threshold`, otherwise `Ok` — so for a *nonnegative* threshold a
zero baseline always yields `Ok`, even for an arbitrarily large target;
metrics with `higher_is_worse = false` always get `Ok`. -/
theorem c1_compute_delta_status_spec (baseline target threshold : ℚ)
    (higher_is_worse : Bool) :
    (compute_delta_status baseline target threshold higher_is_worse).1 =
        target - baseline ∧
    (compute_delta_status baseline target threshold higher_is_worse).2.1 =
        (if baseline ≠ 0 then (target - baseline) * 100 / baseline else 0) ∧
    (compute_delta_status baseline target threshold higher_is_worse).2.2 =
        (if higher_is_worse then
          (if (compute_delta_status baseline target threshold higher_is_worse).2.1
                > threshold then
            RegressionStatus.ExceededThreshold
          else if (compute_delta_status baseline target threshold
                higher_is_worse).2.1 < -threshold then
            RegressionStatus.Improved
          else RegressionStatus.Ok)
        else RegressionStatus.Ok) ∧
    (0 ≤ threshold → baseline = 0 →
      (compute_delta_status baseline target threshold higher_is_worse).2.2 =
        RegressionStatus.Ok) ∧
    (higher_is_worse = false →
      (compute_delta_status baseline target threshold higher_is_worse).2.2 =
        RegressionStatus.Ok) := by
  refine ⟨rfl, rfl, ?_, ?_, ?_⟩
  · cases higher_is_worse <;> simp [compute_delta_status]
  · intro hth hb
    subst hb
    cases higher_is_worse with
    | false => simp [compute_delta_status]
    | true =>
      have h1 : ¬(threshold < (0 : ℚ)) := not_lt.mpr hth
      have h2 : ¬((0 : ℚ) < -threshold) := not_lt.mpr (neg_nonpos.mpr hth)
      simp [compute_delta_status, h1, h2]
  · intro h; subst h; rfl

/-- Claim C1 (amended), witness: the documented concrete cases
(`baseline=100, target=120, threshold=10 → ExceededThreshold, delta_pct=20`;
`baseline=0, target=100, threshold=10 → delta_pct=0, Ok`;
`higher_is_worse=false → Ok`). -/
theorem c1_witness :
    (0 : ℚ) ≤ 10 ∧
    (compute_delta_status 100 120 10 true).2.1 = 20 ∧
    (compute_delta_status 100 120 10 true).2.2 =
      RegressionStatus.ExceededThreshold ∧
    (compute_delta_status 0 100 10 true).2.2 = RegressionStatus.Ok ∧
    (compute_delta_status 100 1000 10 false).2.2 = RegressionStatus.Ok := by
  have h2 := (c1_compute_delta_status_spec 0 100 10 true).2.2.2.1
    (by norm_num) rfl
  have h3 := (c1_compute_delta_status_spec 100 1000 10 false).2.2.2.2 rfl
  have h : compute_delta_status 100 120 10 true =
      (20, 20, RegressionStatus.ExceededThreshold) := by
    simp only [compute_delta_status]
    norm_num
  exact ⟨by norm_num, by rw [h], by rw [h], h2, h3⟩

/-! ## `src/compare_cmd.rs` — canonical metric table and comparison -/

/-- Status of a metric comparison (`CompareStatus`). -/
inductive CompareStatus where
  | Regression
  | Improvement
  | Unchanged
  deriving Repr, DecidableEq

/-- Comparison of a single metric (`MetricComparison`). -/
structure MetricComparison where
  metric : String
  baseline : ℚ
  target : ℚ
  delta : ℚ
  percent : ℚ
  status : CompareStatus
  deriving Repr, DecidableEq

/-- Comparison results for a single circuit (`CircuitComparison`). -/
structure CircuitComparison where
  circuit_name : String
  metrics : List MetricComparison
  has_regression : Bool
  deriving Repr, DecidableEq

/-- Full comparison result (`CompareResult`). -/
structure CompareResult where
  baseline_ref : String
  target_ref : String
  threshold : ℚ
  circuits : List CircuitComparison
  total_regressions : ℕ
  total_improvements : ℕ
  ci_exit_code : ℤ
  deriving Repr, DecidableEq

/-- Metrics to compare with their display names and whether higher is worse
(`METRIC_DEFS`, `src/compare_cmd.rs:72-87`).  The source stores each JSON
path as a dotted string that `get_nested_num` splits on `.`; the embedding
stores it pre-split. -/
def METRIC_DEFS : List (List String × String × Bool) :=
  [ (["prove_time_ms"], "prove_ms", true),
    (["prove_stats", "mean_ms"], "prove_ms", true),
    (["witness_gen_time_ms"], "witness_ms", true),
    (["witness_stats", "mean_ms"], "witness_ms", true),
    (["verify_time_ms"], "verify_ms", true),
    (["verify_stats", "mean_ms"], "verify_ms", true),
    (["backend_prove_time_ms"], "backend_ms", true),
    (["execution_time_ms"], "exec_ms", true),
    (["total_gates"], "gates", true),
    (["proof_size_bytes"], "proof_size", true),
    (["peak_memory_bytes"], "peak_mem", true),
    (["peak_rss_mb"], "peak_rss_mb", true),
    (["proving_key_size_bytes"], "pk_size", false),
    (["verification_key_size_bytes"], "vk_size", false) ]

/-- Nested numeric lookup (`get_nested_num`, `src/compare_cmd.rs:89-99`):
descend through all path components but the last, then read the final key as
a number.  Any missing component yields `none`. -/
def get_nested_num : Json → List String → Option ℚ
  | _, [] => none
  | v, [k] => (v.get k).bind Json.as_num
  | v, p :: ps =>
    match v.get p with
    | some v2 => get_nested_num v2 ps
    | none => none

/-- The body of the `compare_values` loop (`src/compare_cmd.rs:122-166`):
walk the metric table in order, skipping canonical names already seen, and
emit a comparison whenever both records expose the path numerically. -/
def compareAux (baseline target : Json) (threshold : ℚ) :
    List (List String × String × Bool) → List String → List MetricComparison
  | [], _ => []
  | (json_path, display_name, higher_is_worse) :: defs, seen =>
    if display_name ∈ seen then
      compareAux baseline target threshold defs seen
    else
      match get_nested_num baseline json_path,
            get_nested_num target json_path with
      | some bv, some tv =>
        let delta := tv - bv
        let percent := if bv ≠ 0 then delta * 100 / bv else 0
        let status :=
          if higher_is_worse then
            if percent > threshold then CompareStatus.Regression
            else if percent < -threshold then CompareStatus.Improvement
            else CompareStatus.Unchanged
          else CompareStatus.Unchanged
        ⟨display_name, bv, tv, delta, percent, status⟩ ::
          compareAux baseline target threshold defs (display_name :: seen)
      | _, _ => compareAux baseline target threshold defs seen

/-- `compare_values` (`src/compare_cmd.rs:122-166`). -/
def compare_values (baseline target : Json) (threshold : ℚ) :
    List MetricComparison :=
  compareAux baseline target threshold METRIC_DEFS []

/-- The final path component of a path string with its extension removed
(models `Path::new(s).file_stem()` composed with `to_str`; the special
treatment std gives hidden files with no further dot is elided — no claim
exercises this fallback). -/
def file_stem (s : String) : Option String :=
  match (s.splitOn "/").getLast? with
  | none => none
  | some base =>
    if base = "" then none
    else
      match (base.splitOn ".").dropLast with
      | [] => some base
      | parts => some (String.intercalate "." parts)

/-- `get_circuit_name` (`src/compare_cmd.rs:101-120`): the `circuit_name`
field, else the `name` field, else the file stem of `artifact_path`. -/
def get_circuit_name (v : Json) : Option String :=
  (((v.get "circuit_name").bind Json.as_str).orElse
    (fun _ => (v.get "name").bind Json.as_str)).orElse
    (fun _ => ((v.get "artifact_path").bind Json.as_str).map
      (fun s => (file_stem s).getD "unknown"))

/-- `compare_single_records` (`src/compare_cmd.rs:168-183`). -/
def compare_single_records (baseline target : Json) (threshold : ℚ) :
    CircuitComparison :=
  let circuit_name :=
    ((get_circuit_name baseline).orElse
      (fun _ => get_circuit_name target)).getD "unknown"
  let metrics := compare_values baseline target threshold
  let has_regression :=
    metrics.any (fun m => decide (m.status = CompareStatus.Regression))
  ⟨circuit_name, metrics, has_regression⟩

/-- The baseline index built by `compare_jsonl_files`
(`src/compare_cmd.rs:197-203`): a `HashMap<String, Value>` populated by
inserting each baseline record under its `circuit_name`, so a later record
with the same name overwrites an earlier one. -/
def build_baseline_map (records : List (String × Json)) :
    String → Option Json :=
  records.foldl
    (fun m r => fun k => if k = r.1 then some r.2 else m k)
    (fun _ => none)

/-- The record-matching core of `compare_jsonl_files`
(`src/compare_cmd.rs:186-226`), over in-memory record lists (file reading
and record serialization are outside the embedding; a record is its
`circuit_name` paired with its serialized JSON form).  A matched target is
compared against its baseline; an unmatched target is emitted with
`compare_values(Null, target)` and `has_regression = false`. -/
def compare_jsonl_records (baseline target : List (String × Json))
    (threshold : ℚ) : List CircuitComparison :=
  let bmap := build_baseline_map baseline
  target.map (fun r =>
    match bmap r.1 with
    | some baseline_json => compare_single_records baseline_json r.2 threshold
    | none => ⟨r.1, compare_values Json.null r.2 threshold, false⟩)

/-! ## `src/report/regression.rs` — the report accumulator -/

/-- Delta analysis for a single metric (`MetricDelta`). -/
structure MetricDelta where
  metric : String
  baseline : ℚ
  target : ℚ
  delta_abs : ℚ
  delta_pct : ℚ
  threshold : ℚ
  status : RegressionStatus
  deriving Repr, DecidableEq

/-- Regression analysis for a single circuit (`CircuitRegression`). -/
structure CircuitRegression where
  circuit_name : String
  params : Option ℕ
  metrics : List MetricDelta
  status : RegressionStatus
  deriving Repr, DecidableEq

/-- Summary statistics for the report (`ReportSummary`). -/
structure ReportSummary where
  total_circuits : ℕ
  circuits_with_regressions : ℕ
  circuits_with_improvements : ℕ
  total_metrics : ℕ
  regressions : ℕ
  improvements : ℕ
  unchanged : ℕ
  missing_baselines : ℕ
  errors : ℕ
  ci_exit_code : ℤ
  deriving Repr, DecidableEq

/-- Report metadata (`ReportMetadata`; the IO-derived `generated_at`
timestamp and the optional provenance fields are outside the embedding). -/
structure ReportMetadata where
  baseline_id : String
  target_id : String
  threshold_percent : ℚ
  deriving Repr, DecidableEq

/-- A complete regression report (`RegressionReport`; the
`version_mismatches` list, populated only by the provenance collaborator, is
outside the embedding). -/
structure RegressionReport where
  version : ℕ
  metadata : ReportMetadata
  circuits : List CircuitRegression
  summary : ReportSummary
  deriving Repr, DecidableEq

/-- `RegressionReport::new` (`src/report/regression.rs:162-196`). -/
def RegressionReport.new (baseline_id target_id : String)
    (threshold_percent : ℚ) : RegressionReport :=
  ⟨1, ⟨baseline_id, target_id, threshold_percent⟩, [],
    ⟨0, 0, 0, 0, 0, 0, 0, 0, 0, 0⟩⟩

/-- The per-metric summary update in `add_circuit`
(`src/report/regression.rs:219-229`): each metric bumps `total_metrics`,
and its status bumps the matching bucket (`Skipped` bumps none). -/
def ReportSummary.bump_metric (s : ReportSummary) (st : RegressionStatus) :
    ReportSummary :=
  let s := { s with total_metrics := s.total_metrics + 1 }
  match st with
  | .ExceededThreshold => { s with regressions := s.regressions + 1 }
  | .Improved => { s with improvements := s.improvements + 1 }
  | .Ok => { s with unchanged := s.unchanged + 1 }
  | .MissingBaseline => { s with missing_baselines := s.missing_baselines + 1 }
  | .Error => { s with errors := s.errors + 1 }
  | .Skipped => s

/-- `RegressionReport::add_circuit` (`src/report/regression.rs:198-232`). -/
def RegressionReport.add_circuit (r : RegressionReport)
    (circuit : CircuitRegression) : RegressionReport :=
  let s := { r.summary with total_circuits := r.summary.total_circuits + 1 }
  let has_regression := circuit.metrics.any
    (fun m => decide (m.status = RegressionStatus.ExceededThreshold))
  let has_improvement := circuit.metrics.any
    (fun m => decide (m.status = RegressionStatus.Improved))
  let s := { s with
    circuits_with_regressions :=
      s.circuits_with_regressions + (if has_regression then 1 else 0),
    circuits_with_improvements :=
      s.circuits_with_improvements + (if has_improvement then 1 else 0) }
  let s := circuit.metrics.foldl
    (fun acc m => acc.bump_metric m.status) s
  { r with summary := s, circuits := r.circuits ++ [circuit] }

/-- `RegressionReport::finalize` (`src/report/regression.rs:234-241`). -/
def RegressionReport.finalize (r : RegressionReport) : RegressionReport :=
  { r with summary :=
      { r.summary with ci_exit_code :=
          if 0 < r.summary.regressions ∨ 0 < r.summary.errors then 1
          else 0 } }

/-- `to_regression_report` (`src/compare_cmd.rs:332-380`). -/
def to_regression_report (result : CompareResult) : RegressionReport :=
  let report := RegressionReport.new result.baseline_ref result.target_ref
    result.threshold
  let report := result.circuits.foldl
    (fun rep circuit =>
      let metrics : List MetricDelta := circuit.metrics.map (fun m =>
        let status := match m.status with
          | CompareStatus.Regression => RegressionStatus.ExceededThreshold
          | CompareStatus.Improvement => RegressionStatus.Improved
          | CompareStatus.Unchanged => RegressionStatus.Ok
        ⟨m.metric, m.baseline, m.target, m.delta, m.percent,
          result.threshold, status⟩)
      let circuit_status :=
        if circuit.has_regression then RegressionStatus.ExceededThreshold
        else if metrics.any
            (fun m => decide (m.status = RegressionStatus.Improved)) then
          RegressionStatus.Improved
        else RegressionStatus.Ok
      rep.add_circuit ⟨circuit.circuit_name, none, metrics, circuit_status⟩)
    report
  report.finalize

/-- The totals-and-exit-code assembly of `compare`
(`src/compare_cmd.rs:383-443`), specialized to the JSONL branch over
in-memory record lists. -/
def compare_records (baseline target : List (String × Json))
    (baseline_ref target_ref : String) (threshold : ℚ) : CompareResult :=
  let circuits := compare_jsonl_records baseline target threshold
  let total_regressions : ℕ := (circuits.map (fun c =>
    c.metrics.countP (fun m => decide (m.status = CompareStatus.Regression)))).sum
  let total_improvements : ℕ := (circuits.map (fun c =>
    c.metrics.countP (fun m => decide (m.status = CompareStatus.Improvement)))).sum
  let ci_exit_code : ℤ := if 0 < total_regressions then 1 else 0
  ⟨baseline_ref, target_ref, threshold, circuits, total_regressions,
    total_improvements, ci_exit_code⟩

/-! ## Claims C8 and C10 — the canonical metric table -/

/-- An entry of the metric table is a *hit* for canonical name `c` on a
record pair when it carries that canonical name and its source path reads a
number out of both records (the emission condition of `compare_values`). -/
def metric_alias_hit (b t : Json) (c : String)
    (d : List String × String × Bool) : Bool :=
  decide (d.2.1 = c) && (get_nested_num b d.1).isSome &&
    (get_nested_num t d.1).isSome

lemma compareAux_mem_spec (b t : Json) (th : ℚ) :
    ∀ (defs : List (List String × String × Bool)) (seen : List String)
      (mc : MetricComparison), mc ∈ compareAux b t th defs seen →
      mc.metric ∉ seen ∧
      ∃ path hiw,
        defs.find? (metric_alias_hit b t mc.metric) =
          some (path, mc.metric, hiw) ∧
        get_nested_num b path = some mc.baseline ∧
        get_nested_num t path = some mc.target := by
  intro defs
  induction defs with
  | nil => intro seen mc hmc; simp [compareAux] at hmc
  | cons hd defs ih =>
    obtain ⟨p, dn, hw⟩ := hd
    intro seen mc hmc
    by_cases hseen : dn ∈ seen
    · rw [compareAux, if_pos hseen] at hmc
      obtain ⟨hnot, path, hiw, hfind, hb, ht⟩ := ih seen mc hmc
      refine ⟨hnot, path, hiw, ?_, hb, ht⟩
      rw [List.find?_cons_of_neg, hfind]
      simp only [metric_alias_hit, Bool.and_eq_true, decide_eq_true_eq]
      intro hcontra
      exact hnot (hcontra.1.1 ▸ hseen)
    · rw [compareAux, if_neg hseen] at hmc
      cases hgb : get_nested_num b p with
      | none =>
        rw [hgb] at hmc
        obtain ⟨hnot, path, hiw, hfind, hb2, ht2⟩ := ih seen mc hmc
        refine ⟨hnot, path, hiw, ?_, hb2, ht2⟩
        rw [List.find?_cons_of_neg, hfind]
        simp [metric_alias_hit, hgb]
      | some bv =>
        rw [hgb] at hmc
        cases hgt : get_nested_num t p with
        | none =>
          rw [hgt] at hmc
          obtain ⟨hnot, path, hiw, hfind, hb2, ht2⟩ := ih seen mc hmc
          refine ⟨hnot, path, hiw, ?_, hb2, ht2⟩
          rw [List.find?_cons_of_neg, hfind]
          simp [metric_alias_hit, hgt]
        | some tv =>
          rw [hgt] at hmc
          rcases List.mem_cons.mp hmc with hhead | htail
          · subst hhead
            refine ⟨hseen, p, hw, ?_, by simpa using hgb, by simpa using hgt⟩
            rw [List.find?_cons_of_pos]
            simp [metric_alias_hit, hgb, hgt]
          · obtain ⟨hnot, path, hiw, hfind, hb2, ht2⟩ :=
              ih (dn :: seen) mc htail
            have hne : dn ≠ mc.metric := by
              intro hcontra
              exact hnot (by rw [← hcontra]; exact List.mem_cons_self dn seen)
            refine ⟨fun hm => hnot (List.mem_cons_of_mem dn hm), path, hiw,
              ?_, hb2, ht2⟩
            rw [List.find?_cons_of_neg, hfind]
            simp only [metric_alias_hit, Bool.and_eq_true, decide_eq_true_eq]
            intro hcontra
            exact hne hcontra.1.1

lemma compareAux_names_nodup (b t : Json) (th : ℚ) :
    ∀ (defs : List (List String × String × Bool)) (seen : List String),
      ((compareAux b t th defs seen).map MetricComparison.metric).Nodup := by
  intro defs
  induction defs with
  | nil => intro seen; simp [compareAux]
  | cons hd defs ih =>
    obtain ⟨p, dn, hw⟩ := hd
    intro seen
    by_cases hseen : dn ∈ seen
    · rw [compareAux, if_pos hseen]; exact ih seen
    · rw [compareAux, if_neg hseen]
      cases hgb : get_nested_num b p with
      | none => exact ih seen
      | some bv =>
        cases hgt : get_nested_num t p with
        | none => exact ih seen
        | some tv =>
          simp only [List.map_cons, List.nodup_cons]
          refine ⟨?_, ih (dn :: seen)⟩
          intro hmem
          obtain ⟨mc, hmc, hname⟩ := List.mem_map.mp hmem
          have hns := (compareAux_mem_spec b t th defs (dn :: seen) mc hmc).1
          exact hns (hname ▸ List.mem_cons_self dn seen)

lemma compareAux_name_mem_iff (b t : Json) (th : ℚ) :
    ∀ (defs : List (List String × String × Bool)) (seen : List String)
      (c : String), c ∉ seen →
      (c ∈ (compareAux b t th defs seen).map MetricComparison.metric ↔
        ∃ d ∈ defs, d.2.1 = c ∧ (get_nested_num b d.1).isSome = true ∧
          (get_nested_num t d.1).isSome = true) := by
  intro defs
  induction defs with
  | nil => intro seen c _; simp [compareAux]
  | cons hd defs ih =>
    obtain ⟨p, dn, hw⟩ := hd
    intro seen c hc
    by_cases hseen : dn ∈ seen
    · rw [compareAux, if_pos hseen]
      rw [ih seen c hc]
      constructor
      · rintro ⟨d, hd, hrest⟩; exact ⟨d, List.mem_cons_of_mem _ hd, hrest⟩
      · rintro ⟨d, hd, hname, hrest⟩
        rcases List.mem_cons.mp hd with hhd | hhd
        · exfalso
          apply hc
          rw [← hname, hhd]
          exact hseen
        · exact ⟨d, hhd, hname, hrest⟩
    · rw [compareAux, if_neg hseen]
      cases hgb : get_nested_num b p with
      | none =>
        rw [ih seen c hc]
        constructor
        · rintro ⟨d, hd, hrest⟩; exact ⟨d, List.mem_cons_of_mem _ hd, hrest⟩
        · rintro ⟨d, hd, hname, hb2, ht2⟩
          rcases List.mem_cons.mp hd with hhd | hhd
          · exfalso; rw [hhd] at hb2; simp [hgb] at hb2
          · exact ⟨d, hhd, hname, hb2, ht2⟩
      | some bv =>
        cases hgt : get_nested_num t p with
        | none =>
          rw [ih seen c hc]
          constructor
          · rintro ⟨d, hd, hrest⟩; exact ⟨d, List.mem_cons_of_mem _ hd, hrest⟩
          · rintro ⟨d, hd, hname, hb2, ht2⟩
            rcases List.mem_cons.mp hd with hhd | hhd
            · exfalso; rw [hhd] at ht2; simp [hgt] at ht2
            · exact ⟨d, hhd, hname, hb2, ht2⟩
        | some tv =>
          rw [List.map_cons]
          by_cases hcn : c = dn
          · subst hcn
            constructor
            · intro _
              exact ⟨(p, c, hw), List.mem_cons_self _ _, rfl,
                by simp [hgb], by simp [hgt]⟩
            · intro _
              exact List.mem_cons.mpr (Or.inl rfl)
          · have hc2 : c ∉ dn :: seen := by
              intro hmem
              rcases List.mem_cons.mp hmem with h | h
              · exact hcn h
              · exact hc h
            constructor
            · intro hmem
              rcases List.mem_cons.mp hmem with h | h
              · exact absurd h hcn
              · obtain ⟨d, hd, hrest⟩ := (ih (dn :: seen) c hc2).mp h
                exact ⟨d, List.mem_cons_of_mem _ hd, hrest⟩
            · rintro ⟨d, hd, hname, hrest⟩
              rcases List.mem_cons.mp hd with hhd | hhd
              · exfalso; rw [hhd] at hname; exact hcn hname.symm
              · exact List.mem_cons_of_mem _
                  ((ih (dn :: seen) c hc2).mpr ⟨d, hhd, hname, hrest⟩)

/-- Claim C8: for every pair of records and every threshold, each canonical
metric name appears at most once in the output of `compare_values` (the name
list is duplicate-free); every emitted comparison is produced by the *first*
table entry for its canonical name whose path reads a number out of both
records, and its baseline/target values come from exactly that entry's path;
concretely, a record pair exposing both flat `prove_time_ms` and nested
`prove_stats.mean_ms` yields a single `prove_ms` comparison whose values come
from the flat alias, which the table lists first. -/
theorem c8_first_alias_wins (b t : Json) (th : ℚ) :
    ((compare_values b t th).map MetricComparison.metric).Nodup ∧
    (∀ mc ∈ compare_values b t th,
      ∃ path hiw,
        METRIC_DEFS.find? (metric_alias_hit b t mc.metric) =
          some (path, mc.metric, hiw) ∧
        get_nested_num b path = some mc.baseline ∧
        get_nested_num t path = some mc.target) ∧
    ((compare_values
        (Json.obj [("prove_time_ms", Json.num 100),
          ("prove_stats", Json.obj [("mean_ms", Json.num 200)])])
        (Json.obj [("prove_time_ms", Json.num 110),
          ("prove_stats", Json.obj [("mean_ms", Json.num 220)])])
        th).map (fun mc => (mc.metric, mc.baseline, mc.target))) =
      [("prove_ms", (100 : ℚ), (110 : ℚ))] := by
  refine ⟨compareAux_names_nodup b t th METRIC_DEFS [], ?_, rfl⟩
  intro mc hmc
  exact (compareAux_mem_spec b t th METRIC_DEFS [] mc hmc).2

/-- Claim C8, witness: on the concrete record pair carrying both prove-time
aliases, the emitted comparison exists and is characterized by the first
matching table entry. -/
theorem c8_witness :
    ∃ mc, mc ∈ compare_values
        (Json.obj [("prove_time_ms", Json.num 100),
          ("prove_stats", Json.obj [("mean_ms", Json.num 200)])])
        (Json.obj [("prove_time_ms", Json.num 110),
          ("prove_stats", Json.obj [("mean_ms", Json.num 220)])]) 10 ∧
      ∃ path hiw,
        METRIC_DEFS.find? (metric_alias_hit
          (Json.obj [("prove_time_ms", Json.num 100),
            ("prove_stats", Json.obj [("mean_ms", Json.num 200)])])
          (Json.obj [("prove_time_ms", Json.num 110),
            ("prove_stats", Json.obj [("mean_ms", Json.num 220)])])
          mc.metric) = some (path, mc.metric, hiw) := by
  have hmem : ∃ mc, mc ∈ compare_values
      (Json.obj [("prove_time_ms", Json.num 100),
        ("prove_stats", Json.obj [("mean_ms", Json.num 200)])])
      (Json.obj [("prove_time_ms", Json.num 110),
        ("prove_stats", Json.obj [("mean_ms", Json.num 220)])]) 10 :=
    ⟨_, List.mem_cons_self _ _⟩
  obtain ⟨mc, hmc⟩ := hmem
  obtain ⟨path, hiw, hfind, _, _⟩ := (c8_first_alias_wins _ _ 10).2.1 mc hmc
  exact ⟨mc, hmc, path, hiw, hfind⟩

/-- Claim C10: for every pair of records and every threshold, a canonical
metric name is emitted by `compare_values` exactly when some alias path in
the metric table reads a number out of *both* the baseline and the target
record; consequently, when the baseline exposes only the legacy flat
`prove_time_ms` and the target only the nested `prove_stats.mean_ms`, no
comparison is emitted at all. -/
theorem c10_metric_emitted_iff (b t : Json) (th : ℚ) (c : String) :
    (c ∈ (compare_values b t th).map MetricComparison.metric ↔
      ∃ d ∈ METRIC_DEFS, d.2.1 = c ∧
        (get_nested_num b d.1).isSome = true ∧
        (get_nested_num t d.1).isSome = true) ∧
    compare_values (Json.obj [("prove_time_ms", Json.num 100)])
      (Json.obj [("prove_stats", Json.obj [("mean_ms", Json.num 105)])])
      th = [] := by
  exact ⟨compareAux_name_mem_iff b t th METRIC_DEFS [] c (List.not_mem_nil c),
    rfl⟩

/-- Claim C10, witness: a record pair that both expose `total_gates` emits
the `gates` metric, via the iff instantiated at that concrete pair. -/
theorem c10_witness :
    "gates" ∈ (compare_values (Json.obj [("total_gates", Json.num 1000)])
      (Json.obj [("total_gates", Json.num 1050)]) 10).map
        MetricComparison.metric := by
  refine (c10_metric_emitted_iff (Json.obj [("total_gates", Json.num 1000)])
    (Json.obj [("total_gates", Json.num 1050)]) 10 "gates").1.mpr ?_
  refine ⟨(["total_gates"], "gates", true), ?_, rfl, rfl, rfl⟩
  decide

/-! ## Claims C2 and C9 — the report accumulator -/

/-- Number of metrics across a circuit list whose status is `st`. -/
def metric_status_count (cs : List CircuitRegression)
    (st : RegressionStatus) : ℕ :=
  (cs.map (fun c => c.metrics.countP (fun m => decide (m.status = st)))).sum

lemma metrics_foldl_spec (ms : List MetricDelta) : ∀ s : ReportSummary,
    (ms.foldl (fun acc m => acc.bump_metric m.status) s).total_metrics =
      s.total_metrics + ms.length ∧
    (ms.foldl (fun acc m => acc.bump_metric m.status) s).regressions =
      s.regressions + ms.countP
        (fun m => decide (m.status = RegressionStatus.ExceededThreshold)) ∧
    (ms.foldl (fun acc m => acc.bump_metric m.status) s).improvements =
      s.improvements + ms.countP
        (fun m => decide (m.status = RegressionStatus.Improved)) ∧
    (ms.foldl (fun acc m => acc.bump_metric m.status) s).unchanged =
      s.unchanged + ms.countP
        (fun m => decide (m.status = RegressionStatus.Ok)) ∧
    (ms.foldl (fun acc m => acc.bump_metric m.status) s).missing_baselines =
      s.missing_baselines + ms.countP
        (fun m => decide (m.status = RegressionStatus.MissingBaseline)) ∧
    (ms.foldl (fun acc m => acc.bump_metric m.status) s).errors =
      s.errors + ms.countP
        (fun m => decide (m.status = RegressionStatus.Error)) ∧
    (ms.foldl (fun acc m => acc.bump_metric m.status) s).total_circuits =
      s.total_circuits ∧
    (ms.foldl (fun acc m => acc.bump_metric m.status) s).circuits_with_regressions =
      s.circuits_with_regressions ∧
    (ms.foldl (fun acc m => acc.bump_metric m.status) s).circuits_with_improvements =
      s.circuits_with_improvements ∧
    (ms.foldl (fun acc m => acc.bump_metric m.status) s).ci_exit_code =
      s.ci_exit_code := by
  induction ms with
  | nil => intro s; simp
  | cons m ms ih =>
    intro s
    have hih := ih (s.bump_metric m.status)
    obtain ⟨h1, h2, h3, h4, h5, h6, h7, h8, h9, h10⟩ := hih
    simp only [List.foldl_cons, List.countP_cons, List.length_cons]
    cases hst : m.status <;>
      simp only [ReportSummary.bump_metric, hst] at h1 h2 h3 h4 h5 h6 h7 h8 h9 h10 ⊢ <;>
      refine ⟨by omega, ?_, ?_, ?_, ?_, ?_, by omega, by omega, by omega, ?_⟩ <;>
      simp [h1, h2, h3, h4, h5, h6, h7, h8, h9, h10, hst] <;> omega

lemma add_circuit_spec (r : RegressionReport) (c : CircuitRegression) :
    (r.add_circuit c).summary.total_circuits =
      r.summary.total_circuits + 1 ∧
    (r.add_circuit c).summary.total_metrics =
      r.summary.total_metrics + c.metrics.length ∧
    (r.add_circuit c).summary.regressions =
      r.summary.regressions + c.metrics.countP
        (fun m => decide (m.status = RegressionStatus.ExceededThreshold)) ∧
    (r.add_circuit c).summary.improvements =
      r.summary.improvements + c.metrics.countP
        (fun m => decide (m.status = RegressionStatus.Improved)) ∧
    (r.add_circuit c).summary.unchanged =
      r.summary.unchanged + c.metrics.countP
        (fun m => decide (m.status = RegressionStatus.Ok)) ∧
    (r.add_circuit c).summary.missing_baselines =
      r.summary.missing_baselines + c.metrics.countP
        (fun m => decide (m.status = RegressionStatus.MissingBaseline)) ∧
    (r.add_circuit c).summary.errors =
      r.summary.errors + c.metrics.countP
        (fun m => decide (m.status = RegressionStatus.Error)) ∧
    (r.add_circuit c).summary.ci_exit_code = r.summary.ci_exit_code ∧
    (r.add_circuit c).circuits = r.circuits ++ [c] := by
  obtain ⟨h1, h2, h3, h4, h5, h6, h7, _, _, h10⟩ :=
    metrics_foldl_spec c.metrics
      { r.summary with
        total_circuits := r.summary.total_circuits + 1,
        circuits_with_regressions := r.summary.circuits_with_regressions +
          (if c.metrics.any (fun m =>
            decide (m.status = RegressionStatus.ExceededThreshold)) then 1
           else 0),
        circuits_with_improvements := r.summary.circuits_with_improvements +
          (if c.metrics.any (fun m =>
            decide (m.status = RegressionStatus.Improved)) then 1 else 0) }
  exact ⟨h7, h1, h2, h3, h4, h5, h6, h10, rfl⟩

lemma fold_add_circuit_spec (cs : List CircuitRegression) :
    ∀ r : RegressionReport,
    (cs.foldl RegressionReport.add_circuit r).summary.total_circuits =
      r.summary.total_circuits + cs.length ∧
    (cs.foldl RegressionReport.add_circuit r).summary.total_metrics =
      r.summary.total_metrics + (cs.map (fun c => c.metrics.length)).sum ∧
    (cs.foldl RegressionReport.add_circuit r).summary.regressions =
      r.summary.regressions +
        metric_status_count cs RegressionStatus.ExceededThreshold ∧
    (cs.foldl RegressionReport.add_circuit r).summary.improvements =
      r.summary.improvements +
        metric_status_count cs RegressionStatus.Improved ∧
    (cs.foldl RegressionReport.add_circuit r).summary.unchanged =
      r.summary.unchanged + metric_status_count cs RegressionStatus.Ok ∧
    (cs.foldl RegressionReport.add_circuit r).summary.missing_baselines =
      r.summary.missing_baselines +
        metric_status_count cs RegressionStatus.MissingBaseline ∧
    (cs.foldl RegressionReport.add_circuit r).summary.errors =
      r.summary.errors + metric_status_count cs RegressionStatus.Error ∧
    (cs.foldl RegressionReport.add_circuit r).summary.ci_exit_code =
      r.summary.ci_exit_code ∧
    (cs.foldl RegressionReport.add_circuit r).circuits =
      r.circuits ++ cs := by
  induction cs with
  | nil => intro r; simp [metric_status_count]
  | cons c cs ih =>
    intro r
    obtain ⟨g1, g2, g3, g4, g5, g6, g7, g8, g9⟩ := add_circuit_spec r c
    obtain ⟨h1, h2, h3, h4, h5, h6, h7, h8, h9⟩ := ih (r.add_circuit c)
    simp only [List.foldl_cons, List.map_cons, List.sum_cons,
      List.length_cons, metric_status_count] at h1 h2 h3 h4 h5 h6 h7 h8 h9 ⊢
    refine ⟨by omega, by omega, by omega, by omega, by omega, by omega,
      by omega, by rw [h8, g8], by rw [h9, g9]; simp⟩

lemma metrics_length_partition (ms : List MetricDelta) :
    ms.length =
      ms.countP (fun m => decide (m.status = RegressionStatus.ExceededThreshold)) +
      ms.countP (fun m => decide (m.status = RegressionStatus.Improved)) +
      ms.countP (fun m => decide (m.status = RegressionStatus.Ok)) +
      ms.countP (fun m => decide (m.status = RegressionStatus.MissingBaseline)) +
      ms.countP (fun m => decide (m.status = RegressionStatus.Error)) +
      ms.countP (fun m => decide (m.status = RegressionStatus.Skipped)) := by
  induction ms with
  | nil => simp
  | cons m ms ih =>
    simp only [List.countP_cons, List.length_cons]
    cases hst : m.status <;> simp [hst] <;> omega

lemma sum_metrics_length_partition (cs : List CircuitRegression) :
    (cs.map (fun c => c.metrics.length)).sum =
      metric_status_count cs RegressionStatus.ExceededThreshold +
      metric_status_count cs RegressionStatus.Improved +
      metric_status_count cs RegressionStatus.Ok +
      metric_status_count cs RegressionStatus.MissingBaseline +
      metric_status_count cs RegressionStatus.Error +
      metric_status_count cs RegressionStatus.Skipped := by
  induction cs with
  | nil => simp [metric_status_count]
  | cons c cs ih =>
    simp only [List.map_cons, List.sum_cons, metric_status_count] at ih ⊢
    have hp := metrics_length_partition c.metrics
    omega

/-- Claim C9: after any sequence of `add_circuit` calls starting from a fresh
report, `total_circuits` is the number of circuits added; `regressions`,
`improvements`, `unchanged`, `missing_baselines` and `errors` are the number
of metrics across all added circuits with status `ExceededThreshold`,
`Improved`, `Ok`, `MissingBaseline` and `Error` respectively; every metric —
including `Skipped` ones — increments `total_metrics`, but `Skipped` metrics
increment no per-status bucket, so the buckets fall short of `total_metrics`
by exactly the number of `Skipped` metrics. -/
theorem c9_summary_invariant (b t : String) (th : ℚ)
    (cs : List CircuitRegression) :
    (cs.foldl RegressionReport.add_circuit
      (RegressionReport.new b t th)).summary.total_circuits = cs.length ∧
    (cs.foldl RegressionReport.add_circuit
      (RegressionReport.new b t th)).summary.regressions =
        metric_status_count cs RegressionStatus.ExceededThreshold ∧
    (cs.foldl RegressionReport.add_circuit
      (RegressionReport.new b t th)).summary.improvements =
        metric_status_count cs RegressionStatus.Improved ∧
    (cs.foldl RegressionReport.add_circuit
      (RegressionReport.new b t th)).summary.unchanged =
        metric_status_count cs RegressionStatus.Ok ∧
    (cs.foldl RegressionReport.add_circuit
      (RegressionReport.new b t th)).summary.missing_baselines =
        metric_status_count cs RegressionStatus.MissingBaseline ∧
    (cs.foldl RegressionReport.add_circuit
      (RegressionReport.new b t th)).summary.errors =
        metric_status_count cs RegressionStatus.Error ∧
    (cs.foldl RegressionReport.add_circuit
      (RegressionReport.new b t th)).summary.total_metrics =
        (cs.map (fun c => c.metrics.length)).sum ∧
    (cs.foldl RegressionReport.add_circuit
      (RegressionReport.new b t th)).summary.total_metrics =
      metric_status_count cs RegressionStatus.ExceededThreshold +
      metric_status_count cs RegressionStatus.Improved +
      metric_status_count cs RegressionStatus.Ok +
      metric_status_count cs RegressionStatus.MissingBaseline +
      metric_status_count cs RegressionStatus.Error +
      metric_status_count cs RegressionStatus.Skipped := by
  obtain ⟨h1, h2, h3, h4, h5, h6, h7, _, _⟩ :=
    fold_add_circuit_spec cs (RegressionReport.new b t th)
  have hpart := sum_metrics_length_partition cs
  have z1 : (RegressionReport.new b t th).summary.total_circuits = 0 := rfl
  have z2 : (RegressionReport.new b t th).summary.total_metrics = 0 := rfl
  have z3 : (RegressionReport.new b t th).summary.regressions = 0 := rfl
  have z4 : (RegressionReport.new b t th).summary.improvements = 0 := rfl
  have z5 : (RegressionReport.new b t th).summary.unchanged = 0 := rfl
  have z6 : (RegressionReport.new b t th).summary.missing_baselines = 0 := rfl
  have z7 : (RegressionReport.new b t th).summary.errors = 0 := rfl
  refine ⟨by omega, by omega, by omega, by omega, by omega, by omega,
    by omega, by omega⟩

/-- Claim C2: for every report built by a sequence of `add_circuit` calls and
then finalized, `summary.ci_exit_code = 1` exactly when `summary.regressions`
or `summary.errors` is positive, and `0` otherwise; in particular, when the
added circuits contain exactly one `ExceededThreshold` metric the summary
shows `regressions = 1` and exit code `1`, and when they contain no
`ExceededThreshold` and no `Error` metric the exit code is `0`. -/
theorem c2_finalize_exit_code (b t : String) (th : ℚ)
    (cs : List CircuitRegression) :
    ((cs.foldl RegressionReport.add_circuit
        (RegressionReport.new b t th)).finalize.summary.ci_exit_code = 1 ↔
      0 < (cs.foldl RegressionReport.add_circuit
        (RegressionReport.new b t th)).finalize.summary.regressions ∨
      0 < (cs.foldl RegressionReport.add_circuit
        (RegressionReport.new b t th)).finalize.summary.errors) ∧
    (¬(0 < (cs.foldl RegressionReport.add_circuit
          (RegressionReport.new b t th)).finalize.summary.regressions ∨
       0 < (cs.foldl RegressionReport.add_circuit
          (RegressionReport.new b t th)).finalize.summary.errors) →
      (cs.foldl RegressionReport.add_circuit
        (RegressionReport.new b t th)).finalize.summary.ci_exit_code = 0) ∧
    (metric_status_count cs RegressionStatus.ExceededThreshold = 1 →
      (cs.foldl RegressionReport.add_circuit
        (RegressionReport.new b t th)).finalize.summary.regressions = 1 ∧
      (cs.foldl RegressionReport.add_circuit
        (RegressionReport.new b t th)).finalize.summary.ci_exit_code = 1) ∧
    (metric_status_count cs RegressionStatus.ExceededThreshold = 0 →
      metric_status_count cs RegressionStatus.Error = 0 →
      (cs.foldl RegressionReport.add_circuit
        (RegressionReport.new b t th)).finalize.summary.ci_exit_code = 0) := by
  obtain ⟨_, _, h3, _, _, _, h7, _, _⟩ :=
    fold_add_circuit_spec cs (RegressionReport.new b t th)
  have z3 : (RegressionReport.new b t th).summary.regressions = 0 := rfl
  have z7 : (RegressionReport.new b t th).summary.errors = 0 := rfl
  set r := cs.foldl RegressionReport.add_circuit (RegressionReport.new b t th)
    with hr
  have hreg : r.finalize.summary.regressions = r.summary.regressions := rfl
  have herr : r.finalize.summary.errors = r.summary.errors := rfl
  have hexit : r.finalize.summary.ci_exit_code =
      (if 0 < r.summary.regressions ∨ 0 < r.summary.errors then 1 else 0) :=
    rfl
  by_cases hcond : 0 < r.summary.regressions ∨ 0 < r.summary.errors
  · have hx : r.finalize.summary.ci_exit_code = 1 := by
      rw [hexit, if_pos hcond]
    refine ⟨⟨fun _ => hcond, fun _ => hx⟩, fun hn => absurd hcond hn,
      fun hone => ⟨?_, hx⟩, fun he1 he2 => ?_⟩
    · rw [hreg]; omega
    · exfalso; omega
  · have hx : r.finalize.summary.ci_exit_code = 0 := by
      rw [hexit, if_neg hcond]
    refine ⟨⟨fun h1x => ?_, fun hor => absurd hor hcond⟩, fun _ => hx,
      fun hone => ?_, fun _ _ => hx⟩
    · rw [hx] at h1x; exact absurd h1x (by norm_num)
    · exfalso; push_neg at hcond; omega

/-- Claim C2, witness: a report with a single circuit carrying one
`ExceededThreshold` metric finalizes to `regressions = 1`, exit code `1`;
the empty report finalizes to exit code `0`. -/
theorem c2_witness :
    (([⟨"test-circuit", none,
        [⟨"prove_ms", 100, 120, 20, 20, 10,
          RegressionStatus.ExceededThreshold⟩],
        RegressionStatus.ExceededThreshold⟩] :
          List CircuitRegression).foldl RegressionReport.add_circuit
        (RegressionReport.new "base" "target" 10)).finalize.summary.regressions
        = 1 ∧
    (([⟨"test-circuit", none,
        [⟨"prove_ms", 100, 120, 20, 20, 10,
          RegressionStatus.ExceededThreshold⟩],
        RegressionStatus.ExceededThreshold⟩] :
          List CircuitRegression).foldl RegressionReport.add_circuit
        (RegressionReport.new "base" "target" 10)).finalize.summary.ci_exit_code
        = 1 ∧
    (([] : List CircuitRegression).foldl RegressionReport.add_circuit
        (RegressionReport.new "base" "target" 10)).finalize.summary.ci_exit_code
        = 0 := by
  have hone := (c2_finalize_exit_code "base" "target" 10
    [⟨"test-circuit", none,
      [⟨"prove_ms", 100, 120, 20, 20, 10,
        RegressionStatus.ExceededThreshold⟩],
      RegressionStatus.ExceededThreshold⟩]).2.2.1 (by rfl)
  have hzero := (c2_finalize_exit_code "base" "target" 10 []).2.2.2 rfl rfl
  exact ⟨hone.1, hone.2, hzero⟩

/-! ## Claim C3 — alignment by circuit name -/

lemma get_nested_num_null : ∀ ps : List String,
    get_nested_num Json.null ps = none
  | [] => rfl
  | [_] => rfl
  | _ :: _ :: _ => rfl

lemma compareAux_null (t : Json) (th : ℚ) :
    ∀ (defs : List (List String × String × Bool)) (seen : List String),
      compareAux Json.null t th defs seen = [] := by
  intro defs
  induction defs with
  | nil => intro seen; rfl
  | cons hd defs ih =>
    obtain ⟨p, dn, hw⟩ := hd
    intro seen
    by_cases hseen : dn ∈ seen
    · rw [compareAux, if_pos hseen]; exact ih seen
    · rw [compareAux, if_neg hseen, get_nested_num_null]
      cases hgt : get_nested_num t p <;> exact ih seen

lemma compare_values_null (t : Json) (th : ℚ) :
    compare_values Json.null t th = [] :=
  compareAux_null t th METRIC_DEFS []

lemma build_baseline_map_eq :
    ∀ (records : List (String × Json)) (m : String → Option Json)
      (k : String),
      records.foldl
        (fun m r => fun k => if k = r.1 then some r.2 else m k) m k =
      (match records.reverse.find? (fun b => decide (b.1 = k)) with
       | some b => some b.2
       | none => m k) := by
  intro records
  induction records with
  | nil => intro m k; rfl
  | cons r rs ih =>
    intro m k
    rw [List.foldl_cons, ih]
    rw [List.reverse_cons, List.find?_append]
    cases hf : rs.reverse.find? (fun b => decide (b.1 = k)) with
    | some b => rfl
    | none =>
      simp only [Option.none_or]
      by_cases hk : r.1 = k
      · subst hk
        simp [List.find?_cons]
      · have hk' : ¬(k = r.1) := fun h => hk h.symm
        simp [List.find?_cons, hk, hk']

lemma foldl_add_circuit_conv_mem (f : CircuitComparison → CircuitRegression) :
    ∀ (cs : List CircuitComparison) (init : RegressionReport)
      (c : CircuitRegression),
      c ∈ (cs.foldl (fun rep circuit => rep.add_circuit (f circuit))
        init).circuits →
      c ∈ init.circuits ∨ ∃ x ∈ cs, c = f x := by
  intro cs
  induction cs with
  | nil => intro init c hc; exact Or.inl hc
  | cons x cs ih =>
    intro init c hc
    rw [List.foldl_cons] at hc
    rcases ih (init.add_circuit (f x)) c hc with hin | ⟨y, hy, hcy⟩
    · rw [(add_circuit_spec init (f x)).2.2.2.2.2.2.2.2] at hin
      rcases List.mem_append.mp hin with h | h
      · exact Or.inl h
      · exact Or.inr ⟨x, List.mem_cons_self _ _,
          (List.mem_singleton.mp h)⟩
    · exact Or.inr ⟨y, List.mem_cons_of_mem _ hy, hcy⟩

lemma to_regression_report_no_missing (res : CompareResult) :
    ∀ c ∈ (to_regression_report res).circuits,
      c.status ≠ RegressionStatus.MissingBaseline ∧
      ∀ m ∈ c.metrics, m.status ≠ RegressionStatus.MissingBaseline := by
  intro c hc
  rcases foldl_add_circuit_conv_mem _ res.circuits
      (RegressionReport.new res.baseline_ref res.target_ref res.threshold)
      c hc with hin | ⟨x, _, hcx⟩
  · exact absurd hin (List.not_mem_nil c)
  · subst hcx
    constructor
    · dsimp only
      split
      · decide
      · split
        · decide
        · decide
    · intro m hm
      dsimp only at hm
      obtain ⟨y, _, hmy⟩ := List.mem_map.mp hm
      subst hmy
      dsimp only
      cases y.status <;> decide

/-- Claim C3, counterexample.  The claim states that a target record with no
baseline match is emitted with status `MissingBaseline`.  With an empty
baseline set and a single target record `"c"`, the comparison does emit a
circuit entry for `"c"` without failing — but in the derived regression
report its status is `Ok`, not `MissingBaseline`; the comparison pipeline
never produces the `MissingBaseline` status. -/
theorem c3_counterexample :
    ((to_regression_report (compare_records []
        [("c", Json.obj [("prove_time_ms", Json.num 100)])] "base" "target"
        10)).circuits.map CircuitRegression.status) = [RegressionStatus.Ok] ∧
    RegressionStatus.Ok ≠ RegressionStatus.MissingBaseline :=
  ⟨rfl, by decide⟩

/-- Claim C3 (amended): when comparing a baseline record set against a target
record set, records are matched by exact `circuit_name` string equality only
(the most recently inserted baseline record with that name wins), and every
target record whose `circuit_name` has no match in the baseline set is still
emitted as a circuit entry — with an empty metric list and
`has_regression = false`, which the derived regression report renders with
status `Ok` rather than `MissingBaseline` — without causing the comparison to
fail; the comparison pipeline never assigns `MissingBaseline` to any circuit
or metric. -/
theorem c3_alignment_spec (baseline target : List (String × Json)) (th : ℚ) :
    compare_jsonl_records baseline target th = target.map (fun r =>
      match baseline.reverse.find? (fun p => decide (p.1 = r.1)) with
      | some p => compare_single_records p.2 r.2 th
      | none => ⟨r.1, [], false⟩) ∧
    (compare_jsonl_records baseline target th).length = target.length ∧
    (∀ res : CompareResult, ∀ c ∈ (to_regression_report res).circuits,
      c.status ≠ RegressionStatus.MissingBaseline ∧
      ∀ m ∈ c.metrics, m.status ≠ RegressionStatus.MissingBaseline) := by
  have heq : compare_jsonl_records baseline target th = target.map (fun r =>
      match baseline.reverse.find? (fun p => decide (p.1 = r.1)) with
      | some p => compare_single_records p.2 r.2 th
      | none => ⟨r.1, [], false⟩) := by
    apply List.map_congr_left
    intro r _
    show (match build_baseline_map baseline r.1 with
      | some baseline_json => compare_single_records baseline_json r.2 th
      | none => ⟨r.1, compare_values Json.null r.2 th, false⟩) = _
    rw [show build_baseline_map baseline r.1 =
        (match baseline.reverse.find? (fun p => decide (p.1 = r.1)) with
         | some p => some p.2
         | none => none) from build_baseline_map_eq baseline _ r.1]
    cases hf : baseline.reverse.find? (fun p => decide (p.1 = r.1)) with
    | some p => rfl
    | none => rw [compare_values_null]
  refine ⟨heq, ?_, to_regression_report_no_missing⟩
  rw [heq, List.length_map]

/-- Claim C3 (amended), witness: the unmatched target circuit from the
concrete scenario is present in the derived regression report and its status
is not `MissingBaseline`. -/
theorem c3_witness :
    ∃ c, c ∈ (to_regression_report (compare_records []
        [("d", Json.obj [("prove_time_ms", Json.num 100)])] "base" "target"
        10)).circuits ∧ c.status ≠ RegressionStatus.MissingBaseline := by
  have hmem : ∃ c, c ∈ (to_regression_report (compare_records []
      [("d", Json.obj [("prove_time_ms", Json.num 100)])] "base" "target"
      10)).circuits := ⟨_, List.mem_cons_self _ _⟩
  obtain ⟨c, hc⟩ := hmem
  exact ⟨c, hc, ((c3_alignment_spec []
    [("d", Json.obj [("prove_time_ms", Json.num 100)])] 10).2.2 _ c hc).1⟩

/-! ## Claim C4 — `TimingStat::from_samples` (`src/core/schema.rs`) -/

/-- Timing statistics for a benchmark phase (`TimingStat`,
`src/core/schema.rs:11-23`).  The source's `stddev_ms : Option<f64>` holds
`sqrt(variance)`; the square root of a rational is irrational in general, so
the embedding stores the population variance `stddev_sq_ms` — the square of
the source's field — and theorems relate it to the standard deviation
through `Real.sqrt`. -/
structure TimingStat where
  iterations : ℕ
  mean_ms : ℚ
  median_ms : Option ℚ
  stddev_sq_ms : Option ℚ
  min_ms : ℚ
  max_ms : ℚ
  p95_ms : Option ℚ
  deriving Repr, DecidableEq

/-- `TimingStat::from_samples` (`src/core/schema.rs:27-77`).  The source
seeds its `f64::min`/`f64::max` folds with `±INFINITY`; over `ℚ` the folds
are seeded with the first sample instead (equivalent on the non-empty path,
and the empty path returns early).  `sort_by(partial_cmp)` is an ascending
sort, modelled by `List.insertionSort`; `saturating_sub` is truncated `ℕ`
subtraction. -/
def TimingStat.from_samples (samples : List ℚ) : TimingStat :=
  let n := samples.length
  if n = 0 then
    ⟨0, 0, none, none, 0, 0, none⟩
  else
    let sum := samples.sum
    let mean_ms := sum / (n : ℚ)
    let min_ms := samples.foldl min (samples.headD 0)
    let max_ms := samples.foldl max (samples.headD 0)
    let variance := (samples.map (fun x => (x - mean_ms) ^ 2)).sum / (n : ℚ)
    let sorted := List.insertionSort (· ≤ ·) samples
    let median_ms :=
      if n % 2 = 0 then
        some ((sorted.getD (n / 2 - 1) 0 + sorted.getD (n / 2) 0) / 2)
      else some (sorted.getD (n / 2) 0)
    let p95_idx := min (Nat.ceil ((0.95 : ℚ) * (n : ℚ)) - 1) (n - 1)
    let p95_ms := some (sorted.getD p95_idx 0)
    ⟨n, mean_ms, median_ms, some variance, min_ms, max_ms, p95_ms⟩

lemma foldl_min_le (xs : List ℚ) : ∀ a : ℚ,
    xs.foldl min a ≤ a ∧ ∀ x ∈ xs, xs.foldl min a ≤ x := by
  induction xs with
  | nil => intro a; exact ⟨le_refl a, by simp⟩
  | cons y ys ih =>
    intro a
    obtain ⟨h1, h2⟩ := ih (min a y)
    rw [List.foldl_cons]
    refine ⟨le_trans h1 (min_le_left a y), ?_⟩
    intro z hz
    rcases List.mem_cons.mp hz with h | h
    · rw [h]; exact le_trans h1 (min_le_right a y)
    · exact h2 z h

lemma foldl_min_mem (xs : List ℚ) : ∀ a : ℚ,
    xs.foldl min a = a ∨ xs.foldl min a ∈ xs := by
  induction xs with
  | nil => intro a; exact Or.inl rfl
  | cons y ys ih =>
    intro a
    rw [List.foldl_cons]
    rcases ih (min a y) with h | h
    · rcases min_choice a y with hm | hm
      · exact Or.inl (h.trans hm)
      · exact Or.inr (List.mem_cons.mpr (Or.inl (h.trans hm)))
    · exact Or.inr (List.mem_cons_of_mem y h)

lemma foldl_max_ge (xs : List ℚ) : ∀ a : ℚ,
    a ≤ xs.foldl max a ∧ ∀ x ∈ xs, x ≤ xs.foldl max a := by
  induction xs with
  | nil => intro a; exact ⟨le_refl a, by simp⟩
  | cons y ys ih =>
    intro a
    obtain ⟨h1, h2⟩ := ih (max a y)
    rw [List.foldl_cons]
    refine ⟨le_trans (le_max_left a y) h1, ?_⟩
    intro z hz
    rcases List.mem_cons.mp hz with h | h
    · rw [h]; exact le_trans (le_max_right a y) h1
    · exact h2 z h

lemma foldl_max_mem (xs : List ℚ) : ∀ a : ℚ,
    xs.foldl max a = a ∨ xs.foldl max a ∈ xs := by
  induction xs with
  | nil => intro a; exact Or.inl rfl
  | cons y ys ih =>
    intro a
    rw [List.foldl_cons]
    rcases ih (max a y) with h | h
    · rcases max_choice a y with hm | hm
      · exact Or.inl (h.trans hm)
      · exact Or.inr (List.mem_cons.mpr (Or.inl (h.trans hm)))
    · exact Or.inr (List.mem_cons_of_mem y h)

lemma from_samples_eq (s : List ℚ) (hs : s ≠ []) :
    TimingStat.from_samples s =
      ⟨s.length, s.sum / (s.length : ℚ),
       (if s.length % 2 = 0 then
          some (((List.insertionSort (· ≤ ·) s).getD (s.length / 2 - 1) 0 +
            (List.insertionSort (· ≤ ·) s).getD (s.length / 2) 0) / 2)
        else some ((List.insertionSort (· ≤ ·) s).getD (s.length / 2) 0)),
       some ((s.map (fun x => (x - s.sum / (s.length : ℚ)) ^ 2)).sum /
         (s.length : ℚ)),
       s.foldl min (s.headD 0), s.foldl max (s.headD 0),
       some ((List.insertionSort (· ≤ ·) s).getD
         (min (Nat.ceil ((0.95 : ℚ) * (s.length : ℚ)) - 1) (s.length - 1))
         0)⟩ := by
  have hne : ¬(s.length = 0) := by simpa [List.length_eq_zero] using hs
  rw [TimingStat.from_samples]
  simp only [if_neg hne]

lemma from_samples_nonempty (s : List ℚ) (sorted : List ℚ) (hs : s ≠ [])
    (hperm : sorted.Perm s) (hsort : sorted.Sorted (· ≤ ·)) :
    (TimingStat.from_samples s).iterations = s.length ∧
    (TimingStat.from_samples s).mean_ms = s.sum / (s.length : ℚ) ∧
    ((TimingStat.from_samples s).min_ms ∈ s ∧
      ∀ x ∈ s, (TimingStat.from_samples s).min_ms ≤ x) ∧
    ((TimingStat.from_samples s).max_ms ∈ s ∧
      ∀ x ∈ s, x ≤ (TimingStat.from_samples s).max_ms) ∧
    (TimingStat.from_samples s).stddev_sq_ms =
      some ((s.map (fun x => (x - s.sum / (s.length : ℚ)) ^ 2)).sum /
        (s.length : ℚ)) ∧
    (TimingStat.from_samples s).median_ms =
      (if s.length % 2 = 0 then
        some ((sorted.getD (s.length / 2 - 1) 0 +
          sorted.getD (s.length / 2) 0) / 2)
      else some (sorted.getD (s.length / 2) 0)) ∧
    (TimingStat.from_samples s).p95_ms =
      some (sorted.getD
        (min (Nat.ceil ((0.95 : ℚ) * (s.length : ℚ)) - 1) (s.length - 1))
        0) := by
  have heq := from_samples_eq s hs
  have hsorted_eq : sorted = List.insertionSort (· ≤ ·) s :=
    List.eq_of_perm_of_sorted
      (hperm.trans (List.perm_insertionSort _ s).symm) hsort
      (List.sorted_insertionSort _ s)
  subst hsorted_eq
  obtain ⟨x, xs, rfl⟩ : ∃ x xs, s = x :: xs := by
    cases s with
    | nil => exact absurd rfl hs
    | cons x xs => exact ⟨x, xs, rfl⟩
  have key_min : (x :: xs).foldl min ((x :: xs).headD 0) =
      xs.foldl min x := by
    rw [List.headD_cons, List.foldl_cons, min_self]
  have key_max : (x :: xs).foldl max ((x :: xs).headD 0) =
      xs.foldl max x := by
    rw [List.headD_cons, List.foldl_cons, max_self]
  refine ⟨by rw [heq], by rw [heq], ⟨?_, ?_⟩, ⟨?_, ?_⟩, by rw [heq],
    by rw [heq], by rw [heq]⟩
  · rw [heq]
    dsimp only
    rw [key_min]
    rcases foldl_min_mem xs x with h | h
    · rw [h]; exact List.mem_cons_self x xs
    · exact List.mem_cons_of_mem x h
  · intro y hy
    rw [heq]
    dsimp only
    rw [key_min]
    obtain ⟨h1, h2⟩ := foldl_min_le xs x
    rcases List.mem_cons.mp hy with h | h
    · rw [h]; exact h1
    · exact h2 y h
  · rw [heq]
    dsimp only
    rw [key_max]
    rcases foldl_max_mem xs x with h | h
    · rw [h]; exact List.mem_cons_self x xs
    · exact List.mem_cons_of_mem x h
  · intro y hy
    rw [heq]
    dsimp only
    rw [key_max]
    obtain ⟨h1, h2⟩ := foldl_max_ge xs x
    rcases List.mem_cons.mp hy with h | h
    · rw [h]; exact h1
    · exact h2 y h

/-- Claim C4: `TimingStat::from_samples` matches the spec's reference
definition.  For every non-empty sample list `s` and every sorted
rearrangement `sorted` of it: `iterations` is the sample count, `mean_ms` is
`sum / n`, `min_ms`/`max_ms` are the least and greatest sample, the stored
variance is the population variance `Σ (x - mean)² / n` (whose square root
is the source's `stddev`), the median is the middle element of the sorted
samples (average of the two middle ones when `n` is even), and `p95` is the
sorted element at index `clamp(ceil(0.95·n) - 1, 0, n-1)`.  The empty list
yields the zeroed struct with `None` percentile fields rather than an error,
and `[100, 110, 105, 115, 120]` gives mean `110`, variance `50` (standard
deviation `√50 ≈ 7.071`), median `110` and p95 `120`. -/
theorem c4_from_samples_spec (s : List ℚ) (sorted : List ℚ) (hs : s ≠ [])
    (hperm : sorted.Perm s) (hsort : sorted.Sorted (· ≤ ·)) :
    ((TimingStat.from_samples s).iterations = s.length ∧
     (TimingStat.from_samples s).mean_ms = s.sum / (s.length : ℚ) ∧
     ((TimingStat.from_samples s).min_ms ∈ s ∧
       ∀ x ∈ s, (TimingStat.from_samples s).min_ms ≤ x) ∧
     ((TimingStat.from_samples s).max_ms ∈ s ∧
       ∀ x ∈ s, x ≤ (TimingStat.from_samples s).max_ms) ∧
     (TimingStat.from_samples s).stddev_sq_ms =
       some ((s.map (fun x => (x - s.sum / (s.length : ℚ)) ^ 2)).sum /
         (s.length : ℚ)) ∧
     (TimingStat.from_samples s).median_ms =
       (if s.length % 2 = 0 then
         some ((sorted.getD (s.length / 2 - 1) 0 +
           sorted.getD (s.length / 2) 0) / 2)
       else some (sorted.getD (s.length / 2) 0)) ∧
     (TimingStat.from_samples s).p95_ms =
       some (sorted.getD
         (min (Nat.ceil ((0.95 : ℚ) * (s.length : ℚ)) - 1) (s.length - 1))
         0)) ∧
    TimingStat.from_samples ([] : List ℚ) = ⟨0, 0, none, none, 0, 0, none⟩ ∧
    ((TimingStat.from_samples [100, 110, 105, 115, 120]).iterations = 5 ∧
     (TimingStat.from_samples [100, 110, 105, 115, 120]).mean_ms = 110 ∧
     (TimingStat.from_samples [100, 110, 105, 115, 120]).min_ms = 100 ∧
     (TimingStat.from_samples [100, 110, 105, 115, 120]).max_ms = 120 ∧
     (TimingStat.from_samples [100, 110, 105, 115, 120]).stddev_sq_ms =
       some 50 ∧
     |Real.sqrt 50 - 7.071| < 0.001 ∧
     (TimingStat.from_samples [100, 110, 105, 115, 120]).median_ms =
       some 110 ∧
     (TimingStat.from_samples [100, 110, 105, 115, 120]).p95_ms =
       some 120) := by
  refine ⟨from_samples_nonempty s sorted hs hperm hsort, rfl, ?_⟩
  obtain ⟨g1, g2, ⟨gmin_mem, gmin_le⟩, ⟨gmax_mem, gmax_ge⟩, g5, g6, g7⟩ :=
    from_samples_nonempty [100, 110, 105, 115, 120] [100, 105, 110, 115, 120]
      (by decide) (by decide) (by decide)
  refine ⟨g1, ?_, ?_, ?_, ?_, ?_, ?_, ?_⟩
  · rw [g2]; norm_num [List.sum_cons, List.sum_nil]
  · have hb := gmin_le 100 (by simp)
    simp only [List.mem_cons, List.not_mem_nil, or_false] at gmin_mem
    rcases gmin_mem with h | h | h | h | h
    · exact h
    all_goals (exfalso; rw [h] at hb; norm_num at hb)
  · have hb := gmax_ge 120 (by simp)
    simp only [List.mem_cons, List.not_mem_nil, or_false] at gmax_mem
    rcases gmax_mem with h | h | h | h | h
    · exfalso; rw [h] at hb; norm_num at hb
    · exfalso; rw [h] at hb; norm_num at hb
    · exfalso; rw [h] at hb; norm_num at hb
    · exfalso; rw [h] at hb; norm_num at hb
    · exact h
  · rw [g5]; norm_num [List.map_cons, List.map_nil, List.sum_cons,
      List.sum_nil]
  · rw [abs_sub_lt_iff]
    constructor <;>
      nlinarith [Real.sq_sqrt (by norm_num : (0:ℝ) ≤ 50),
        Real.sqrt_nonneg (50:ℝ)]
  · rw [g6]
    norm_num
  · rw [g7]
    have hceil : Nat.ceil ((0.95 : ℚ) *
        (([100, 110, 105, 115, 120] : List ℚ).length : ℚ)) = 5 := by
      rw [Nat.ceil_eq_iff (by norm_num)]
      push_cast
      norm_num
    rw [hceil]
    rfl

/-- Claim C4, witness: the general specification instantiated at the
documented samples `[100, 110, 105, 115, 120]` with their sorted
rearrangement. -/
theorem c4_witness :
    (TimingStat.from_samples [100, 110, 105, 115, 120]).iterations =
      ([100, 110, 105, 115, 120] : List ℚ).length ∧
    (TimingStat.from_samples [100, 110, 105, 115, 120]).stddev_sq_ms ≠
      none := by
  have h := c4_from_samples_spec [100, 110, 105, 115, 120]
    [100, 105, 110, 115, 120] (by decide) (by decide) (by decide)
  refine ⟨h.1.1, ?_⟩
  rw [h.2.2.2.2.2.2.1]
  simp

/-! ## `src/engine/workflow.rs` — the orchestrator over a deterministic
toolchain/backend -/

/-- Raw result of one `Backend::prove` call (`ProveOutput`,
`src/backend/traits.rs`; the fields the workflow consumes). -/
structure ProveOutput where
  prove_time_ms : ℚ
  peak_memory_bytes : Option ℕ
  proof_size_bytes : Option ℕ
  proving_key_size_bytes : Option ℕ
  verification_key_size_bytes : Option ℕ
  proof_path : Option String
  vk_path : Option String
  deriving Repr, DecidableEq

/-- Result of one `Toolchain::gen_witness` call. -/
structure WitnessResult where
  witness_gen_time_ms : ℚ
  witness_path : String
  deriving Repr, DecidableEq

/-- Gate-count result of `Backend::gate_info`. -/
structure GateInfo where
  backend_gates : ℕ
  acir_opcodes : Option ℕ
  subgroup_size : Option ℕ
  deriving Repr, DecidableEq

/-- Result of one `Backend::verify` call. -/
structure VerifyOutput where
  verify_time_ms : ℚ
  success : Bool
  deriving Repr, DecidableEq

/-- Backend capability flags (`Capabilities`). -/
structure Capabilities where
  can_prove : Bool
  can_verify : Bool
  can_compile : Bool
  has_gate_count : Bool
  has_per_opcode_breakdown : Bool
  has_pk_vk_sizes : Bool
  deriving Repr, DecidableEq

/-- A deterministic Toolchain/Backend pair, as used by the workflow: each
fallible operation is a pure function of how many times it has been called
(a deterministic mock; a fixed-output mock is the constant special case). -/
structure MockEnv where
  gen_witness : ℕ → Except String WitnessResult
  prove : ℕ → Except String ProveOutput
  gate_info : Except String GateInfo
  verify : Except String VerifyOutput
  capabilities : Capabilities

/-- Invocation counters for the four toolchain/backend operations. -/
structure Counts where
  witness : ℕ
  prove : ℕ
  gateInfo : ℕ
  verify : ℕ
  deriving Repr, DecidableEq

/-- Run configuration (`RunConfig`, `src/core/schema.rs:91-97`; the optional
timeout is not consulted by the embedded control flow). -/
structure RunConfig where
  warmup_iterations : ℕ
  measured_iterations : ℕ
  deriving Repr, DecidableEq

/-- The fields of `BenchRecord` (`src/core/schema.rs`) that the prove
workflows populate.  IO-derived fields (`record_id`, `timestamp`, env info,
`circuit_path`, `artifact_size_bytes`) are outside the embedding. -/
structure BenchRecord where
  circuit_name : String
  config : RunConfig
  witness_stats : Option TimingStat
  prove_stats : Option TimingStat
  verify_stats : Option TimingStat
  proof_size_bytes : Option ℕ
  proving_key_size_bytes : Option ℕ
  verification_key_size_bytes : Option ℕ
  peak_rss_mb : Option ℚ
  total_gates : Option ℕ
  acir_opcodes : Option ℕ
  subgroup_size : Option ℕ
  deriving Repr, DecidableEq

/-- A fresh record with the given name and config (`BenchRecord::new`). -/
def BenchRecord.new (circuit_name : String) (config : RunConfig) :
    BenchRecord :=
  ⟨circuit_name, config, none, none, none, none, none, none, none, none,
    none, none⟩

/-- Gate info collection status (`GateInfoStatus`,
`src/engine/workflow.rs:259-264`). -/
inductive GateInfoStatus where
  | Ok
  | SkippedUnsupported
  | Failed : String → GateInfoStatus
  deriving Repr, DecidableEq

/-- Verification status (`VerifyStatus`, `src/engine/workflow.rs:266-273`). -/
inductive VerifyStatus where
  | Ok
  | SkippedUnsupported
  | SkippedMissingArtifacts
  | Failed : String → VerifyStatus
  deriving Repr, DecidableEq

/-- Result of `full_benchmark` (`FullBenchmarkResult`,
`src/engine/workflow.rs:279-299`). -/
structure FullBenchmarkResult where
  record : BenchRecord
  constraints : Option ℕ
  acir_opcodes : Option ℕ
  gate_info_status : GateInfoStatus
  verify_success : Bool
  verify_status : VerifyStatus
  verify_time_ms : Option ℚ
  proof_path : Option String
  vk_path : Option String
  deriving Repr, DecidableEq

/-- The prove loop shared by `prove_with_iterations` and `full_benchmark`
(`src/engine/workflow.rs:205-229` and `362-386`): for each index, generate a
witness, prove, and record both samples only when the index is past the
warmup count; the last prove output is kept for size metrics.  Any error
aborts the loop.  The counter state tracks how many operations were
invoked (witness-file cleanup is outside the embedding). -/
def proveLoop (env : MockEnv) (warmup : ℕ) :
    List ℕ → List ℚ → List ℚ → Option ProveOutput → Counts →
    Counts × Except String (List ℚ × List ℚ × Option ProveOutput)
  | [], wts, pts, last, c => (c, Except.ok (wts, pts, last))
  | i :: rest, wts, pts, _last, c =>
    match env.gen_witness c.witness with
    | Except.error e =>
      ({ c with witness := c.witness + 1 }, Except.error e)
    | Except.ok w =>
      let c1 : Counts := { c with witness := c.witness + 1 }
      match env.prove c1.prove with
      | Except.error e =>
        ({ c1 with prove := c1.prove + 1 }, Except.error e)
      | Except.ok p =>
        let c2 : Counts := { c1 with prove := c1.prove + 1 }
        if i < warmup then
          proveLoop env warmup rest wts pts (some p) c2
        else
          proveLoop env warmup rest (wts ++ [w.witness_gen_time_ms])
            (pts ++ [p.prove_time_ms]) (some p) c2

/-- `prove_with_iterations` (`src/engine/workflow.rs:163-256`): reject
`iterations == 0` before any toolchain/backend call, run the prove loop over
`0 .. warmup + iterations`, aggregate the measured samples into timing
stats, and take size metrics from the last iteration's output. -/
def prove_with_iterations (env : MockEnv) (circuit_name : String)
    (warmup iterations : ℕ) : Counts × Except String BenchRecord :=
  if iterations = 0 then
    (⟨0, 0, 0, 0⟩, Except.error "iterations must be at least 1")
  else
    let lr := proveLoop env warmup (List.range (warmup + iterations))
      [] [] none ⟨0, 0, 0, 0⟩
    match lr.2 with
    | Except.error e => (lr.1, Except.error e)
    | Except.ok (wts, pts, last) =>
      let record1 := { (BenchRecord.new circuit_name ⟨warmup, iterations⟩) with
        witness_stats := some (TimingStat.from_samples wts),
        prove_stats := some (TimingStat.from_samples pts) }
      let record2 := match last with
        | some output => { record1 with
            proof_size_bytes := output.proof_size_bytes,
            proving_key_size_bytes := output.proving_key_size_bytes,
            verification_key_size_bytes := output.verification_key_size_bytes,
            peak_rss_mb := output.peak_memory_bytes.map
              (fun b => (b : ℚ) / (1024 * 1024)) }
        | none => record1
      (lr.1, Except.ok record2)

/-- The post-loop stage of `full_benchmark`
(`src/engine/workflow.rs:388-468`): capability-gated gate info (failure
becomes `GateInfoStatus.Failed`, not an error), size metrics from the last
prove output, then capability- and artifact-gated verification whose
failures become `VerifyStatus` variants. -/
def finish_benchmark (env : MockEnv) (circuit_name : String)
    (warmup iterations : ℕ) (wts pts : List ℚ) (last : Option ProveOutput)
    (c : Counts) : Counts × FullBenchmarkResult :=
  let record1 := { (BenchRecord.new circuit_name ⟨warmup, iterations⟩) with
    witness_stats := some (TimingStat.from_samples wts),
    prove_stats := some (TimingStat.from_samples pts) }
  let capabilities := env.capabilities
  let gi := if capabilities.has_gate_count then
      match env.gate_info with
      | Except.ok info =>
        (some info, GateInfoStatus.Ok,
          { c with gateInfo := c.gateInfo + 1 })
      | Except.error err =>
        (none, GateInfoStatus.Failed err,
          { c with gateInfo := c.gateInfo + 1 })
    else (none, GateInfoStatus.SkippedUnsupported, c)
  let gate_info := gi.1
  let gate_info_status := gi.2.1
  let c2 := gi.2.2
  let constraints := gate_info.map (fun g => g.backend_gates)
  let acir_opcodes := gate_info.bind (fun g => g.acir_opcodes)
  let record2 := match gate_info with
    | some g => { record1 with
        total_gates := some g.backend_gates,
        acir_opcodes := g.acir_opcodes,
        subgroup_size := g.subgroup_size }
    | none => record1
  let sz := match last with
    | some output =>
      ({ record2 with
          proof_size_bytes := output.proof_size_bytes,
          proving_key_size_bytes := output.proving_key_size_bytes,
          verification_key_size_bytes := output.verification_key_size_bytes,
          peak_rss_mb := output.peak_memory_bytes.map
            (fun b => (b : ℚ) / (1024 * 1024)) },
        output.proof_path, output.vk_path)
    | none => (record2, none, none)
  let record3 := sz.1
  let proof_path := sz.2.1
  let vk_path := sz.2.2
  let vr := if !capabilities.can_verify then
      (false, none, VerifyStatus.SkippedUnsupported, record3, c2)
    else
      match proof_path, vk_path with
      | some _, some _ =>
        (match env.verify with
         | Except.ok output =>
           let record4 := { record3 with
             verify_stats :=
               some (TimingStat.from_samples [output.verify_time_ms]) }
           if output.success then
             (true, some output.verify_time_ms, VerifyStatus.Ok, record4,
               { c2 with verify := c2.verify + 1 })
           else
             (false, some output.verify_time_ms,
               VerifyStatus.Failed "verification failed", record4,
               { c2 with verify := c2.verify + 1 })
         | Except.error err =>
           (false, none, VerifyStatus.Failed err, record3,
             { c2 with verify := c2.verify + 1 }))
      | _, _ =>
        (false, none, VerifyStatus.SkippedMissingArtifacts, record3, c2)
  (vr.2.2.2.2, ⟨vr.2.2.2.1, constraints, acir_opcodes, gate_info_status,
    vr.1, vr.2.2.1, vr.2.1, proof_path, vk_path⟩)

/-- `full_benchmark` (`src/engine/workflow.rs:319-469`): reject
`iterations == 0` up front, run the prove loop, then the gate-info / size /
verify stage; a loop failure aborts with no result, while gate-info and
verify failures are recorded as status enums on a still-returned result. -/
def full_benchmark (env : MockEnv) (circuit_name : String)
    (warmup iterations : ℕ) :
    Counts × Except String FullBenchmarkResult :=
  if iterations = 0 then
    (⟨0, 0, 0, 0⟩, Except.error "iterations must be at least 1")
  else
    let lr := proveLoop env warmup (List.range (warmup + iterations))
      [] [] none ⟨0, 0, 0, 0⟩
    match lr.2 with
    | Except.error e => (lr.1, Except.error e)
    | Except.ok (wts, pts, last) =>
      let fin := finish_benchmark env circuit_name warmup iterations wts pts
        last lr.1
      (fin.1, Except.ok fin.2)

/-! ## Claims C5, C6, C7 — the orchestrator -/

lemma proveLoop_ok_spec (env : MockEnv) (warmup : ℕ) :
    ∀ (idxs : List ℕ) (wts pts : List ℚ) (last : Option ProveOutput)
      (c c' : Counts) (out : List ℚ × List ℚ × Option ProveOutput),
      proveLoop env warmup idxs wts pts last c = (c', Except.ok out) →
      c'.witness = c.witness + idxs.length ∧
      c'.prove = c.prove + idxs.length ∧
      c'.gateInfo = c.gateInfo ∧
      c'.verify = c.verify ∧
      out.1.length = wts.length +
        idxs.countP (fun i => decide (warmup ≤ i)) ∧
      out.2.1.length = pts.length +
        idxs.countP (fun i => decide (warmup ≤ i)) := by
  intro idxs
  induction idxs with
  | nil =>
    intro wts pts last c c' out h
    rw [proveLoop] at h
    obtain ⟨hc, hout⟩ := Prod.mk.injEq .. ▸ h
    simp only [Except.ok.injEq] at hout
    subst hc
    subst hout
    simp
  | cons i rest ih =>
    intro wts pts last c c' out h
    rw [proveLoop] at h
    cases hw : env.gen_witness c.witness with
    | error e => rw [hw] at h; simp at h
    | ok w =>
      rw [hw] at h
      dsimp only at h
      cases hp : env.prove c.prove with
      | error e => rw [hp] at h; simp at h
      | ok p =>
        rw [hp] at h
        dsimp only at h
        by_cases hi : i < warmup
        · rw [if_pos hi] at h
          obtain ⟨h1, h2, h3, h4, h5, h6⟩ := ih _ _ _ _ _ _ h
          dsimp only at h1 h2 h3 h4
          have hni : ¬(warmup ≤ i) := not_le.mpr hi
          have hcp : (i :: rest).countP (fun j => decide (warmup ≤ j)) =
              rest.countP (fun j => decide (warmup ≤ j)) := by
            rw [List.countP_cons]
            simp [hni]
          rw [hcp, List.length_cons]
          exact ⟨by omega, by omega, h3, h4, h5, h6⟩
        · rw [if_neg hi] at h
          obtain ⟨h1, h2, h3, h4, h5, h6⟩ := ih _ _ _ _ _ _ h
          dsimp only at h1 h2 h3 h4
          rw [List.length_append, List.length_singleton] at h5 h6
          have hyi : warmup ≤ i := not_lt.mp hi
          have hcp : (i :: rest).countP (fun j => decide (warmup ≤ j)) =
              rest.countP (fun j => decide (warmup ≤ j)) + 1 := by
            rw [List.countP_cons]
            simp [hyi]
          rw [hcp, List.length_cons]
          exact ⟨by omega, by omega, h3, h4, by omega, by omega⟩

lemma range_countP_measured (warmup m : ℕ) :
    (List.range (warmup + m)).countP (fun i => decide (warmup ≤ i)) = m := by
  induction m with
  | zero =>
    rw [Nat.add_zero]
    rw [List.countP_eq_zero]
    intro i hi
    simp only [decide_eq_true_eq]
    exact not_le.mpr (List.mem_range.mp hi)
  | succ m ih =>
    rw [← Nat.add_assoc, List.range_succ, List.countP_append, ih]
    simp [List.countP_cons]

/-- Claim C5: whenever the iterated prove workflow with warmup `W` and
measured `M` completes over a deterministic toolchain/backend, the
witness-generation and prove operations were each invoked exactly `W + M`
times, yet only the last `M` iterations' samples enter the statistics: the
returned record has `prove_stats.iterations = M`,
`witness_stats.iterations = M`, `config.warmup_iterations = W` and
`config.measured_iterations = M`. -/
theorem c5_warmup_measured_iterations (env : MockEnv) (name : String)
    (W M : ℕ) (c : Counts) (r : BenchRecord)
    (h : prove_with_iterations env name W M = (c, Except.ok r)) :
    c.witness = W + M ∧
    c.prove = W + M ∧
    (∃ st, r.witness_stats = some st ∧ st.iterations = M) ∧
    (∃ st, r.prove_stats = some st ∧ st.iterations = M) ∧
    r.config.warmup_iterations = W ∧
    r.config.measured_iterations = M := by
  by_cases hM : M = 0
  · rw [prove_with_iterations, if_pos hM] at h
    simp at h
  · rw [prove_with_iterations, if_neg hM] at h
    dsimp only at h
    cases hl : (proveLoop env W (List.range (W + M)) [] [] none
        ⟨0, 0, 0, 0⟩).2 with
    | error e => rw [hl] at h; simp at h
    | ok out =>
      obtain ⟨wts, pts, last⟩ := out
      rw [hl] at h
      dsimp only at h
      simp only [Prod.mk.injEq, Except.ok.injEq] at h
      obtain ⟨hc, hr⟩ := h
      have hpair : proveLoop env W (List.range (W + M)) [] [] none
          ⟨0, 0, 0, 0⟩ =
          ((proveLoop env W (List.range (W + M)) [] [] none
            ⟨0, 0, 0, 0⟩).1, Except.ok (wts, pts, last)) := by
        rw [← hl]
      obtain ⟨h1, h2, _, _, h5, h6⟩ :=
        proveLoop_ok_spec env W _ _ _ _ _ _ _ hpair
      rw [List.length_range] at h1 h2
      dsimp only at h5 h6
      rw [List.length_nil, range_countP_measured] at h5 h6
      rw [Nat.zero_add] at h5 h6
      have hwne : wts ≠ [] := by
        intro hnil; rw [hnil] at h5; simp at h5; exact hM h5.symm
      have hpne : pts ≠ [] := by
        intro hnil; rw [hnil] at h6; simp at h6; exact hM h6.symm
      have hwit : (TimingStat.from_samples wts).iterations = wts.length := by
        rw [from_samples_eq wts hwne]
      have hpit : (TimingStat.from_samples pts).iterations = pts.length := by
        rw [from_samples_eq pts hpne]
      have hfields : r.witness_stats =
            some (TimingStat.from_samples wts) ∧
          r.prove_stats = some (TimingStat.from_samples pts) ∧
          r.config.warmup_iterations = W ∧
          r.config.measured_iterations = M := by
        cases last with
        | none => rw [← hr]; exact ⟨rfl, rfl, rfl, rfl⟩
        | some o => rw [← hr]; exact ⟨rfl, rfl, rfl, rfl⟩
      have hz1 : (⟨0, 0, 0, 0⟩ : Counts).witness = 0 := rfl
      have hz2 : (⟨0, 0, 0, 0⟩ : Counts).prove = 0 := rfl
      refine ⟨by rw [← hc]; omega, by rw [← hc]; omega,
        ⟨TimingStat.from_samples wts, hfields.1, by rw [hwit]; exact h5⟩,
        ⟨TimingStat.from_samples pts, hfields.2.1, by rw [hpit]; exact h6⟩,
        hfields.2.2.1, hfields.2.2.2⟩

/-- Claim C5, witness: a deterministic mock run with `warmup = 1`,
`measured = 3` invokes witness generation and prove four times each and
yields `prove_stats.iterations = 3`, `config.warmup_iterations = 1`,
`config.measured_iterations = 3`. -/
theorem c5_witness :
    ∃ c r, prove_with_iterations
        ⟨fun _ => Except.ok ⟨10, "w"⟩,
         fun _ => Except.ok ⟨100, none, some 2048, none, none, none, none⟩,
         Except.error "no gates",
         Except.error "no verify",
         ⟨true, false, false, false, false, false⟩⟩
        "test-circuit" 1 3 = (c, Except.ok r) ∧
      c.witness = 1 + 3 ∧ c.prove = 1 + 3 ∧
      (∃ st, r.prove_stats = some st ∧ st.iterations = 3) ∧
      r.config.warmup_iterations = 1 ∧ r.config.measured_iterations = 3 := by
  have hok : ∃ r, (prove_with_iterations
      ⟨fun _ => Except.ok ⟨10, "w"⟩,
       fun _ => Except.ok ⟨100, none, some 2048, none, none, none, none⟩,
       Except.error "no gates",
       Except.error "no verify",
       ⟨true, false, false, false, false, false⟩⟩
      "test-circuit" 1 3).2 = Except.ok r := ⟨_, rfl⟩
  obtain ⟨r, hr⟩ := hok
  have hpair : prove_with_iterations
      ⟨fun _ => Except.ok ⟨10, "w"⟩,
       fun _ => Except.ok ⟨100, none, some 2048, none, none, none, none⟩,
       Except.error "no gates",
       Except.error "no verify",
       ⟨true, false, false, false, false, false⟩⟩
      "test-circuit" 1 3 = ((prove_with_iterations
      ⟨fun _ => Except.ok ⟨10, "w"⟩,
       fun _ => Except.ok ⟨100, none, some 2048, none, none, none, none⟩,
       Except.error "no gates",
       Except.error "no verify",
       ⟨true, false, false, false, false, false⟩⟩
      "test-circuit" 1 3).1, Except.ok r) := by
    rw [← hr]
  obtain ⟨g1, g2, _, g4, g5, g6⟩ := c5_warmup_measured_iterations _ _ _ _ _ _
    hpair
  exact ⟨_, r, hpair, g1, g2, g4, g5, g6⟩

/-- Claim C6: calling either orchestrator entry point with
`measured iterations = 0` returns the input-validation error before any
toolchain or backend operation runs — the invocation counters are all
zero. -/
theorem c6_zero_iterations_rejected (env : MockEnv) (name : String)
    (W : ℕ) :
    prove_with_iterations env name W 0 =
      (⟨0, 0, 0, 0⟩, Except.error "iterations must be at least 1") ∧
    full_benchmark env name W 0 =
      (⟨0, 0, 0, 0⟩, Except.error "iterations must be at least 1") :=
  ⟨rfl, rfl⟩

lemma finish_benchmark_spec (env : MockEnv) (name : String) (W M : ℕ)
    (wts pts : List ℚ) (last : Option ProveOutput) (c : Counts) :
    (finish_benchmark env name W M wts pts last c).2.record.prove_stats =
      some (TimingStat.from_samples pts) ∧
    (env.capabilities.has_gate_count = false →
      (finish_benchmark env name W M wts pts last c).2.gate_info_status =
        GateInfoStatus.SkippedUnsupported ∧
      (finish_benchmark env name W M wts pts last c).1.gateInfo =
        c.gateInfo) ∧
    (∀ msg, env.capabilities.has_gate_count = true →
      env.gate_info = Except.error msg →
      (finish_benchmark env name W M wts pts last c).2.gate_info_status =
        GateInfoStatus.Failed msg) ∧
    (env.capabilities.can_verify = false →
      (finish_benchmark env name W M wts pts last c).2.verify_status =
        VerifyStatus.SkippedUnsupported) ∧
    (env.capabilities.can_verify = true →
      ((finish_benchmark env name W M wts pts last c).2.proof_path = none ∨
       (finish_benchmark env name W M wts pts last c).2.vk_path = none) →
      (finish_benchmark env name W M wts pts last c).2.verify_status =
        VerifyStatus.SkippedMissingArtifacts) ∧
    (∀ msg, env.capabilities.can_verify = true →
      env.verify = Except.error msg →
      (finish_benchmark env name W M wts pts last c).2.proof_path.isSome =
        true →
      (finish_benchmark env name W M wts pts last c).2.vk_path.isSome =
        true →
      (finish_benchmark env name W M wts pts last c).2.verify_status =
        VerifyStatus.Failed msg) ∧
    (∀ vout, env.capabilities.can_verify = true →
      env.verify = Except.ok vout → vout.success = false →
      (finish_benchmark env name W M wts pts last c).2.proof_path.isSome =
        true →
      (finish_benchmark env name W M wts pts last c).2.vk_path.isSome =
        true →
      (finish_benchmark env name W M wts pts last c).2.verify_status =
        VerifyStatus.Failed "verification failed") := by
  refine ⟨?_, ?_, ?_, ?_, ?_, ?_, ?_⟩
  · simp only [finish_benchmark]
    repeat' split
    all_goals rfl
  · intro hgc
    constructor
    · simp [finish_benchmark, hgc]
    · simp [finish_benchmark, hgc]
      repeat' split
      all_goals rfl
  · intro msg hgc hgi
    simp [finish_benchmark, hgc, hgi]
  · intro hcv
    simp [finish_benchmark, hcv]
  · intro hcv hnone
    simp only [finish_benchmark] at hnone ⊢
    rw [hcv]
    cases last with
    | none => simp
    | some o =>
      obtain ⟨pt, pm, psz, pks, pvs, ppath, pvk⟩ := o
      dsimp only at hnone ⊢
      cases ppath with
      | none => simp
      | some p =>
        cases pvk with
        | none => simp
        | some v =>
          rcases hnone with hn | hn <;> simp at hn
  · intro msg hcv hverr hps hvs
    simp only [finish_benchmark] at hps hvs ⊢
    rw [hcv]
    cases last with
    | none => simp at hps
    | some o =>
      obtain ⟨pt, pm, psz, pks, pvs, ppath, pvk⟩ := o
      dsimp only at hps hvs ⊢
      cases ppath with
      | none => simp at hps
      | some p =>
        cases pvk with
        | none => simp at hvs
        | some v =>
          rw [hverr]
          simp
  · intro vout hcv hvok hvfail hps hvs
    simp only [finish_benchmark] at hps hvs ⊢
    rw [hcv]
    cases last with
    | none => simp at hps
    | some o =>
      obtain ⟨pt, pm, psz, pks, pvs, ppath, pvk⟩ := o
      dsimp only at hps hvs ⊢
      cases ppath with
      | none => simp at hps
      | some p =>
        cases pvk with
        | none => simp at hvs
        | some v =>
          rw [hvok]
          simp [hvfail]

/-- Claim C7: once the prove loop of the full benchmark workflow has
succeeded, failures of the optional gate-info or verify steps never turn the
workflow into an error — the result with its populated `BenchRecord` is
still returned.  A gate-info error is recorded as
`GateInfoStatus.Failed msg`; when `has_gate_count` is false the status is
`SkippedUnsupported` and `gate_info` is never invoked; a missing capability,
missing proof/vk artifacts, a verify error and an unsuccessful verification
are recorded as the corresponding `VerifyStatus` variants. -/
theorem c7_optional_steps_nonfatal (env : MockEnv) (name : String)
    (W M : ℕ) (c : Counts) (wts pts : List ℚ) (last : Option ProveOutput)
    (hM : M ≠ 0)
    (hloop : proveLoop env W (List.range (W + M)) [] [] none ⟨0, 0, 0, 0⟩ =
      (c, Except.ok (wts, pts, last))) :
    ∃ fbr, full_benchmark env name W M =
        ((finish_benchmark env name W M wts pts last c).1, Except.ok fbr) ∧
      fbr.record.prove_stats = some (TimingStat.from_samples pts) ∧
      (env.capabilities.has_gate_count = false →
        fbr.gate_info_status = GateInfoStatus.SkippedUnsupported ∧
        (finish_benchmark env name W M wts pts last c).1.gateInfo = 0) ∧
      (∀ msg, env.capabilities.has_gate_count = true →
        env.gate_info = Except.error msg →
        fbr.gate_info_status = GateInfoStatus.Failed msg) ∧
      (env.capabilities.can_verify = false →
        fbr.verify_status = VerifyStatus.SkippedUnsupported) ∧
      (env.capabilities.can_verify = true →
        (fbr.proof_path = none ∨ fbr.vk_path = none) →
        fbr.verify_status = VerifyStatus.SkippedMissingArtifacts) ∧
      (∀ msg, env.capabilities.can_verify = true →
        env.verify = Except.error msg →
        fbr.proof_path.isSome = true → fbr.vk_path.isSome = true →
        fbr.verify_status = VerifyStatus.Failed msg) ∧
      (∀ vout, env.capabilities.can_verify = true →
        env.verify = Except.ok vout → vout.success = false →
        fbr.proof_path.isSome = true → fbr.vk_path.isSome = true →
        fbr.verify_status = VerifyStatus.Failed "verification failed") := by
  have hfull : full_benchmark env name W M =
      ((finish_benchmark env name W M wts pts last c).1,
        Except.ok (finish_benchmark env name W M wts pts last c).2) := by
    rw [full_benchmark, if_neg hM]
    dsimp only
    rw [hloop]
  have hspec := finish_benchmark_spec env name W M wts pts last c
  have hz := proveLoop_ok_spec env W _ _ _ _ _ _ _ hloop
  refine ⟨(finish_benchmark env name W M wts pts last c).2, hfull,
    hspec.1, ?_, hspec.2.2.1, hspec.2.2.2.1, hspec.2.2.2.2.1,
    hspec.2.2.2.2.2.1, hspec.2.2.2.2.2.2⟩
  intro hgc
  refine ⟨(hspec.2.1 hgc).1, ?_⟩
  rw [(hspec.2.1 hgc).2, hz.2.2.1]

/-- Claim C7, witness: a mock backend with neither gate counts nor verify
support still returns a full-benchmark result, with
`GateInfoStatus.SkippedUnsupported`, no `gate_info` invocation, and
`VerifyStatus.SkippedUnsupported`. -/
theorem c7_witness :
    ∃ fbr, full_benchmark
        ⟨fun _ => Except.ok ⟨10, "w"⟩,
         fun _ => Except.ok ⟨100, none, none, none, none, none, none⟩,
         Except.error "gate tool missing",
         Except.error "verify tool missing",
         ⟨true, false, false, false, false, false⟩⟩
        "test-circuit" 0 1 =
        ((finish_benchmark
          ⟨fun _ => Except.ok ⟨10, "w"⟩,
           fun _ => Except.ok ⟨100, none, none, none, none, none, none⟩,
           Except.error "gate tool missing",
           Except.error "verify tool missing",
           ⟨true, false, false, false, false, false⟩⟩
          "test-circuit" 0 1 [10] [100]
          (some ⟨100, none, none, none, none, none, none⟩) ⟨1, 1, 0, 0⟩).1,
          Except.ok fbr) ∧
      fbr.gate_info_status = GateInfoStatus.SkippedUnsupported ∧
      fbr.verify_status = VerifyStatus.SkippedUnsupported := by
  obtain ⟨fbr, h1, _, h3, _, h5, _⟩ := c7_optional_steps_nonfatal
    ⟨fun _ => Except.ok ⟨10, "w"⟩,
     fun _ => Except.ok ⟨100, none, none, none, none, none, none⟩,
     Except.error "gate tool missing",
     Except.error "verify tool missing",
     ⟨true, false, false, false, false, false⟩⟩
    "test-circuit" 0 1 ⟨1, 1, 0, 0⟩ [10] [100]
    (some ⟨100, none, none, none, none, none, none⟩)
    (by decide) rfl
  exact ⟨fbr, h1, (h3 rfl).1, h5 rfl⟩
